import Mathlib

/-!
Shallow embedding of the tracer repository's geometric core:
the flat-surface geometry managers (src/tracer/flat_surface.py),
the columnar ray-bundle container (src/tracer/ray_bundle.py) and
the axis-angle transform helpers (src/src/spatial_geometry.py).

Numbers are modelled as exact rationals.  The `+inf` sentinel that the
intersection code stores for missed rays is modelled by the dedicated
constructor `PDist.inf`; the NaN/inf columns that float arithmetic produces
for such rays (and whose warnings the source suppresses) are modelled as
`none` entries, which is faithful because every such ray already carries an
infinite parametric distance and is excluded from any later test outcome.
-/

namespace Tracer

/-- A 3-component column vector (one column of a numpy 3 x n array). -/
structure Vec3 where
  x : ℚ
  y : ℚ
  z : ℚ
deriving DecidableEq

instance : Inhabited Vec3 := ⟨⟨0, 0, 0⟩⟩

/-- Euclidean dot product of two 3-vectors. -/
def dot (a b : Vec3) : ℚ := a.x * b.x + a.y * b.y + a.z * b.z

/-- Componentwise difference. -/
def vsub (a b : Vec3) : Vec3 := ⟨a.x - b.x, a.y - b.y, a.z - b.z⟩

/-- Componentwise sum. -/
def vadd (a b : Vec3) : Vec3 := ⟨a.x + b.x, a.y + b.y, a.z + b.z⟩

/-- Scalar multiple. -/
def smul (t : ℚ) (a : Vec3) : Vec3 := ⟨t * a.x, t * a.y, t * a.z⟩

/-- Componentwise negation (the `norms[:, backside] *= -1` columns). -/
def vneg (a : Vec3) : Vec3 := ⟨-a.x, -a.y, -a.z⟩

/-- Cross product of two 3-vectors. -/
def cross (a b : Vec3) : Vec3 :=
  ⟨a.y * b.z - a.z * b.y, a.z * b.x - a.x * b.z, a.x * b.y - a.y * b.x⟩

/-- Squared Euclidean norm. -/
def normSq (a : Vec3) : ℚ := dot a a

/-- A homogeneous transformation frame, the 4x4 array [[M, t], [0,0,0,1]] of
the source.  `ax`, `ay`, `az` are columns 0..2 of the rotation block
(frame[:3,0..2], the local basis in world coordinates; `az` = frame[:3,2] is
the local Z axis, i.e. the plane normal for flat surfaces) and `t` is the
translation column frame[:3,3] (the plane point). -/
structure Frame where
  ax : Vec3
  ay : Vec3
  az : Vec3
  t : Vec3
deriving DecidableEq

/-- One ray of a bundle: a column of get_vertices() paired with the matching
column of get_directions(). -/
structure Ray where
  vertex : Vec3
  direction : Vec3
deriving DecidableEq

instance : Inhabited Ray := ⟨⟨default, default⟩⟩

/-- A parametric distance along a ray: a finite value, or the +inf sentinel
that numpy stores for rays that miss the surface. -/
inductive PDist where
  | fin (t : ℚ) : PDist
  | inf : PDist
deriving DecidableEq

/-- The fixed near-parallel tolerance 1e-10 of FlatGeometryManager
(`unparallel = abs(dt) > 1e-10`). -/
def EPS : ℚ := 1 / 10 ^ 10

/-- `dt` for one ray: `N.dot(d.T, frame[:3,2])`. -/
def rayDt (frame : Frame) (r : Ray) : ℚ := dot r.direction frame.az

/-- `vt` for one ray: `N.dot(frame[:3,2], v)` with
`v = vertices - frame[:3,3][:,None]`. -/
def rayVt (frame : Frame) (r : Ray) : ℚ := dot frame.az (vsub r.vertex frame.t)

/-- The parametric distance FlatGeometryManager.find_intersections computes
for one ray: `params` starts at inf, unparallel entries (abs dt > 1e-10) are
overwritten with `-vt/dt`, and negative entries are then forced back to inf
(an inf entry is never negative, so the clamp only touches finite values). -/
def flatParam (frame : Frame) (r : Ray) : PDist :=
  if EPS < |rayDt frame r| then
    if -rayVt frame r / rayDt frame r < 0 then PDist.inf
    else PDist.fin (-rayVt frame r / rayDt frame r)
  else PDist.inf

/-- Modelled from the spec: the GeometryManager base class lives in
geometry_manager.py, which is not among the included sources; per the spec its
find_intersections stores `_working_frame = frame` and
`_working_bundle = ray_bundle`.  That bookkeeping is carried here explicitly,
together with the `_params` and `_backside` arrays that
FlatGeometryManager.find_intersections itself computes. -/
structure FlatState where
  working_frame : Frame
  working_bundle : List Ray
  params : List PDist
  backside : List Bool

/-- FlatGeometryManager.find_intersections: records the working frame and
bundle, computes `params` per ray via `flatParam`, and stores
`_backside = dt > 0`.  The returned distances array is the `params` field. -/
def FlatGeometryManager.find_intersections (frame : Frame) (rays : List Ray) : FlatState :=
  { working_frame := frame
    working_bundle := rays
    params := rays.map (flatParam frame)
    backside := rays.map (fun r => decide (0 < rayDt frame r)) }

/-- Per-cycle state after select_rays: the stored `_idxs`, the narrowed
`_backside` (now positions within the selection), and the `_global`
intersection columns.  A `none` column models the invalid float column that
`v + inf * d` yields when a selected ray's parametric distance is inf. -/
structure SelState where
  working_frame : Frame
  idxs : List ℕ
  backside : List ℕ
  glob : List (Option Vec3)

/-- `N.nonzero(self._backside[idxs])[0]`: the positions, within `idxs`, of
selected rays whose stored backside flag is set. -/
def selectBackside (backside : List Bool) (idxs : List ℕ) : List ℕ :=
  (List.range idxs.length).filter (fun j => backside.getD (idxs.getD j 0) false)

/-- One column of `v + p[None,:] * d`; `none` when p is the inf sentinel. -/
def globalPoint (r : Ray) (p : PDist) : Option Vec3 :=
  match p with
  | PDist.fin t => some (vadd r.vertex (smul t r.direction))
  | PDist.inf => none

/-- FlatGeometryManager.select_rays: stores idxs, narrows `_backside`, and
computes `_global = v[:,idxs] + p[idxs] * d[:,idxs]` for the selected rays. -/
def FlatGeometryManager.select_rays (s : FlatState) (idxs : List ℕ) : SelState :=
  { working_frame := s.working_frame
    idxs := idxs
    backside := selectBackside s.backside idxs
    glob := idxs.map (fun i =>
      globalPoint (s.working_bundle.getD i default) (s.params.getD i PDist.inf)) }

/-- FlatGeometryManager.get_normals: tiles frame[:3,2] over len(_idxs)
columns and negates the columns listed in the narrowed `_backside`. -/
def FlatGeometryManager.get_normals (s : SelState) : List Vec3 :=
  (List.range s.idxs.length).map
    (fun j => if j ∈ s.backside then vneg s.working_frame.az else s.working_frame.az)

/-- get_intersection_points_global: returns the stored `_global` columns. -/
def get_intersection_points_global (s : SelState) : List (Option Vec3) := s.glob

/-- Determinant of the rotation block M = [ax ay az] (columns). -/
def frameDet (f : Frame) : ℚ := dot f.ax (cross f.ay f.az)

/-- One column of `_local`: `N.dot(N.linalg.inv(frame), vstack((global, 1)))`
restricted to its first three rows, written out for a homogeneous frame
[[M, t], [0,0,0,1]]: the inverse is [[inv M, -(inv M) t], [0,0,0,1]], so the
column is (inv M) (g - t), with inv M the adjugate-over-determinant formula
whose rows are (ay x az), (az x ax) and (ax x ay) divided by det M. -/
def frameLocal (f : Frame) (g : Vec3) : Vec3 :=
  let w := vsub g f.t
  ⟨dot (cross f.ay f.az) w / frameDet f,
   dot (cross f.az f.ax) w / frameDet f,
   dot (cross f.ax f.ay) w / frameDet f⟩

/-- Per-cycle state of FiniteFlatGM after find_intersections: the flat state
plus `_global` and `_local` columns for all rays (not only selected ones). -/
structure FiniteState where
  working_frame : Frame
  working_bundle : List Ray
  params : List PDist
  backside : List Bool
  glob : List (Option Vec3)
  loc : List (Option Vec3)

/-- FiniteFlatGM.find_intersections: the full flat computation, then
`_global = v + p * d` for all rays (the source suppresses the invalid-value
warnings this raises for missed rays, whose columns are modelled as `none`
here since "those rays can't be selected anyway") and
`_local = inv(frame) @ [global; 1]`.  The returned distances array is the
unchanged `params` field. -/
def FiniteFlatGM.find_intersections (frame : Frame) (rays : List Ray) : FiniteState :=
  let base := FlatGeometryManager.find_intersections frame rays
  let glob := List.zipWith globalPoint rays base.params
  { working_frame := frame
    working_bundle := rays
    params := base.params
    backside := base.backside
    glob := glob
    loc := glob.map (fun og => og.map (frameLocal frame)) }

/-- FiniteFlatGM.select_rays: same `_idxs`/`_backside` bookkeeping as the
base class, but slices the already-computed `_global` by idxs instead of
recomputing it. -/
def FiniteFlatGM.select_rays (s : FiniteState) (idxs : List ℕ) : SelState :=
  { working_frame := s.working_frame
    idxs := idxs
    backside := selectBackside s.backside idxs
    glob := idxs.map (fun i => s.glob.getD i none) }

/-- A rectangular plate: stores `_half_dims = [width, height] / 2`. -/
structure RectPlateGM where
  half_w : ℚ
  half_h : ℚ
deriving DecidableEq

/-- RectPlateGM.__init__: width must be strictly positive, then height must
be strictly positive (each raising ValueError otherwise), and the half
extents are stored. -/
def RectPlateGM.init (width height : ℚ) : Except String RectPlateGM :=
  if width ≤ 0 then Except.error "Width must be positive"
  else if height ≤ 0 then Except.error "Height must be positive"
  else Except.ok ⟨width / 2, height / 2⟩

/-- One entry of the rectangle's trimming mask assignment
`ray_prms[N.any(abs(_local[:2]) > _half_dims, axis=0)] = N.inf`.  A missed
ray (local column `none`) already carries inf, so whatever truth value its
garbage float column gives the mask, its entry is returned unchanged. -/
def rectTrim (p : RectPlateGM) (prm : PDist) (ol : Option Vec3) : PDist :=
  match ol with
  | some l => if p.half_w < |l.x| ∨ p.half_h < |l.y| then PDist.inf else prm
  | none => prm

/-- RectPlateGM.find_intersections: the finite-flat distances with the
rectangle trimming mask applied, `_local` then discarded. -/
def RectPlateGM.find_intersections (p : RectPlateGM) (frame : Frame) (rays : List Ray) :
    List PDist :=
  let s := FiniteFlatGM.find_intersections frame rays
  List.zipWith (rectTrim p) s.params s.loc

/-- A circular plate: stores the radius `_R`. -/
structure RoundPlateGM where
  R : ℚ
deriving DecidableEq

/-- RoundPlateGM.__init__: R must be strictly positive (else ValueError). -/
def RoundPlateGM.init (R : ℚ) : Except String RoundPlateGM :=
  if R ≤ 0 then Except.error "Radius must be positive"
  else Except.ok ⟨R⟩

/-- One entry of the disk's trimming mask assignment
`ray_prms[N.sum(_local[:2]**2, axis=0) > _R**2] = N.inf`; missed rays (local
column `none`) keep their inf entry. -/
def roundTrim (p : RoundPlateGM) (prm : PDist) (ol : Option Vec3) : PDist :=
  match ol with
  | some l => if p.R ^ 2 < l.x ^ 2 + l.y ^ 2 then PDist.inf else prm
  | none => prm

/-- RoundPlateGM.find_intersections: the finite-flat distances with the
disk trimming mask applied, `_local` then discarded. -/
def RoundPlateGM.find_intersections (p : RoundPlateGM) (frame : Frame) (rays : List Ray) :
    List PDist :=
  let s := FiniteFlatGM.find_intersections frame rays
  List.zipWith (roundTrim p) s.params s.loc

/-- The columnar ray-bundle container.  Each of the five canonical attributes
is either present (`some` columns) or absent (`none`), mirroring the dynamic
attribute presence (`hasattr`) of the source. -/
structure RayBundle where
  vertices : Option (List Vec3)
  directions : Option (List Vec3)
  energy : Option (List ℚ)
  parents : Option (List ℕ)
  ref_index : Option (List ℚ)
deriving DecidableEq

/-- get_num_rays: `self._vertices.shape[1]`.  The source raises when vertices
is unset; theorems that rely on this assume vertices present. -/
def RayBundle.get_num_rays (b : RayBundle) : ℕ := (b.vertices.getD []).length

/-- The columns of xs at the indices of sel, in order (`xs[..., sel]`). -/
def colsAt {α : Type} [Inhabited α] (xs : List α) (sel : List ℕ) : List α :=
  sel.map (fun i => xs.getD i default)

/-- One attribute of inherit: a supplied override is used verbatim (no length
check anywhere); otherwise the bundle's own columns at the selector are
copied when the attribute is present, and the attribute stays absent when
not. -/
def inheritAttr {α : Type} [Inhabited α] (ov : Option (List α))
    (own : Option (List α)) (sel : List ℕ) : Option (List α) :=
  match ov, own with
  | none, some xs => some (colsAt xs sel)
  | o, _ => o

/-- RayBundle.inherit: per-attribute, overrides win, otherwise present
attributes are sliced at the selector; the result is a fresh bundle.  The
second parameter is called `direction` (not `directions`) in the source. -/
def RayBundle.inherit (b : RayBundle) (selector : List ℕ)
    (vertices direction : Option (List Vec3)) (energy : Option (List ℚ))
    (parents : Option (List ℕ)) (ref_index : Option (List ℚ)) : RayBundle :=
  { vertices := inheritAttr vertices b.vertices selector
    directions := inheritAttr direction b.directions selector
    energy := inheritAttr energy b.energy selector
    parents := inheritAttr parents b.parents selector
    ref_index := inheritAttr ref_index b.ref_index selector }

/-- One attribute of __add__: present on both operands concatenates left then
right columns; otherwise the attribute is absent from the result. -/
def mergeAttr {α : Type} (a b : Option (List α)) : Option (List α) :=
  match a, b with
  | some xs, some ys => some (xs ++ ys)
  | _, _ => none

/-- RayBundle.__add__: starts from an attribute-less bundle and sets each of
the five canonical attributes only when present on both operands. -/
def RayBundle.add (a b : RayBundle) : RayBundle :=
  { directions := mergeAttr a.directions b.directions
    vertices := mergeAttr a.vertices b.vertices
    energy := mergeAttr a.energy b.energy
    parents := mergeAttr a.parents b.parents
    ref_index := mergeAttr a.ref_index b.ref_index }

/-- RayBundle.empty_bund: all five canonical attributes present as
zero-length arrays. -/
def RayBundle.empty_bund : RayBundle :=
  { vertices := some []
    directions := some []
    energy := some []
    parents := some []
    ref_index := some [] }

/-- RayBundle.delete_rays: `inherit(N.delete(N.arange(num_rays), selector))`,
i.e. inherit at the ascending complement of the selector, no overrides. -/
def RayBundle.delete_rays (b : RayBundle) (selector : List ℕ) : RayBundle :=
  b.inherit ((List.range b.get_num_rays).filter (fun i => ¬ i ∈ selector))
    none none none none none

/-- A 3x3 matrix, row major. -/
structure Mat3 where
  m00 : ℚ
  m01 : ℚ
  m02 : ℚ
  m10 : ℚ
  m11 : ℚ
  m12 : ℚ
  m20 : ℚ
  m21 : ℚ
  m22 : ℚ
deriving DecidableEq

/-- Matrix transpose. -/
def mat3_transpose (m : Mat3) : Mat3 :=
  ⟨m.m00, m.m10, m.m20, m.m01, m.m11, m.m21, m.m02, m.m12, m.m22⟩

/-- Matrix product. -/
def mat3_mul (a b : Mat3) : Mat3 :=
  ⟨a.m00 * b.m00 + a.m01 * b.m10 + a.m02 * b.m20,
   a.m00 * b.m01 + a.m01 * b.m11 + a.m02 * b.m21,
   a.m00 * b.m02 + a.m01 * b.m12 + a.m02 * b.m22,
   a.m10 * b.m00 + a.m11 * b.m10 + a.m12 * b.m20,
   a.m10 * b.m01 + a.m11 * b.m11 + a.m12 * b.m21,
   a.m10 * b.m02 + a.m11 * b.m12 + a.m12 * b.m22,
   a.m20 * b.m00 + a.m21 * b.m10 + a.m22 * b.m20,
   a.m20 * b.m01 + a.m21 * b.m11 + a.m22 * b.m21,
   a.m20 * b.m02 + a.m21 * b.m12 + a.m22 * b.m22⟩

/-- The identity matrix N.eye(3). -/
def mat3_id : Mat3 := ⟨1, 0, 0, 0, 1, 0, 0, 0, 1⟩

/-- Matrix-vector product. -/
def mat3_mulVec (m : Mat3) (w : Vec3) : Vec3 :=
  ⟨m.m00 * w.x + m.m01 * w.y + m.m02 * w.z,
   m.m10 * w.x + m.m11 * w.y + m.m12 * w.z,
   m.m20 * w.x + m.m21 * w.y + m.m22 * w.z⟩

/-- general_axis_rotation, with the sine s and cosine c of the angle passed
as exact rationals (the source calls math.sin and math.cos on the angle;
every angle yields such a pair with s^2 + c^2 = 1, which is how the theorems
quantify over angles).  The matrix is
`outer(axis, axis) * (1 - c) + eye(3) * c + add * s` with `add` the skew
matrix [[0, -z, y], [z, 0, -x], [-y, x, 0]] of the axis. -/
def general_axis_rotation (axis : Vec3) (s c : ℚ) : Mat3 :=
  let v := 1 - c
  ⟨axis.x * axis.x * v + c, axis.x * axis.y * v - axis.z * s, axis.x * axis.z * v + axis.y * s,
   axis.y * axis.x * v + axis.z * s, axis.y * axis.y * v + c, axis.y * axis.z * v - axis.x * s,
   axis.z * axis.x * v - axis.y * s, axis.z * axis.y * v + axis.x * s, axis.z * axis.z * v + c⟩

/-- A 4x4 matrix, row major. -/
structure Mat4 where
  a00 : ℚ
  a01 : ℚ
  a02 : ℚ
  a03 : ℚ
  a10 : ℚ
  a11 : ℚ
  a12 : ℚ
  a13 : ℚ
  a20 : ℚ
  a21 : ℚ
  a22 : ℚ
  a23 : ℚ
  a30 : ℚ
  a31 : ℚ
  a32 : ℚ
  a33 : ℚ
deriving DecidableEq

/-- generate_transform:
`N.vstack((N.hstack((rot, translation)), N.r_[[0,0,0,1]]))`, the rotation
again given by the exact sine and cosine of its angle. -/
def generate_transform (axis : Vec3) (s c : ℚ) (translation : Vec3) : Mat4 :=
  let r := general_axis_rotation axis s c
  ⟨r.m00, r.m01, r.m02, translation.x,
   r.m10, r.m11, r.m12, translation.y,
   r.m20, r.m21, r.m22, translation.z,
   0, 0, 0, 1⟩

/-- The top-left 3x3 block of a 4x4 matrix. -/
def mat4_rot (m : Mat4) : Mat3 :=
  ⟨m.a00, m.a01, m.a02, m.a10, m.a11, m.a12, m.a20, m.a21, m.a22⟩

/-- The top-right translation column of a 4x4 matrix. -/
def mat4_translation (m : Mat4) : Vec3 := ⟨m.a03, m.a13, m.a23⟩

/-- The bottom row of a 4x4 matrix. -/
def mat4_bottom (m : Mat4) : ℚ × ℚ × ℚ × ℚ := (m.a30, m.a31, m.a32, m.a33)

theorem getD_map_of_lt {α β : Type} [Inhabited α] (g : α → β) (l : List α) (d : β) (i : ℕ)
    (h : i < l.length) : (l.map g).getD i d = g (l.getD i default) := by
  rw [List.getD_eq_getElem (l.map g) d (by simpa using h),
    List.getD_eq_getElem l default h, List.getElem_map]

theorem getD_zipWith_of_lt {α β γ : Type} (g : α → β → γ) (l1 : List α) (l2 : List β)
    (d1 : α) (d2 : β) (d : γ) (i : ℕ) (h1 : i < l1.length) (h2 : i < l2.length) :
    (List.zipWith g l1 l2).getD i d = g (l1.getD i d1) (l2.getD i d2) := by
  rw [List.getD_eq_getElem (List.zipWith g l1 l2) d (by simp [List.length_zipWith]; omega),
    List.getD_eq_getElem l1 d1 h1, List.getD_eq_getElem l2 d2 h2, List.getElem_zipWith]

theorem getD_range_of_lt (n i d : ℕ) (h : i < n) : (List.range n).getD i d = i := by
  rw [List.getD_eq_getElem (List.range n) d (by simpa using h)]
  simp

/-- Claim C1: FlatGeometryManager.find_intersections returns one parametric
distance per ray; a ray whose direction d has abs (d . normal) ≤ 1e-10
(normal = column 2 of the frame's rotation block) gets +inf; every other ray
gets t = -vt/dt with vt = normal . (vertex - plane point) and
dt = d . normal, except that a negative t is replaced by +inf. -/
theorem flat_find_intersections_spec (frame : Frame) (rays : List Ray) (i : ℕ)
    (hi : i < rays.length) :
    (FlatGeometryManager.find_intersections frame rays).params.length = rays.length ∧
    (|rayDt frame (rays.getD i default)| ≤ EPS →
      (FlatGeometryManager.find_intersections frame rays).params.getD i PDist.inf
        = PDist.inf) ∧
    (EPS < |rayDt frame (rays.getD i default)| →
      (-rayVt frame (rays.getD i default) / rayDt frame (rays.getD i default) < 0 →
        (FlatGeometryManager.find_intersections frame rays).params.getD i PDist.inf
          = PDist.inf) ∧
      (0 ≤ -rayVt frame (rays.getD i default) / rayDt frame (rays.getD i default) →
        (FlatGeometryManager.find_intersections frame rays).params.getD i PDist.inf
          = PDist.fin
            (-rayVt frame (rays.getD i default) / rayDt frame (rays.getD i default)))) := by
  have hmap : (FlatGeometryManager.find_intersections frame rays).params.getD i PDist.inf
      = flatParam frame (rays.getD i default) :=
    getD_map_of_lt (flatParam frame) rays PDist.inf i hi
  refine ⟨by simp [FlatGeometryManager.find_intersections], ?_, ?_⟩
  · intro hle
    rw [hmap]
    unfold flatParam
    rw [if_neg (not_lt.mpr hle)]
  · intro hlt
    constructor
    · intro hneg
      rw [hmap]
      unfold flatParam
      rw [if_pos hlt, if_pos hneg]
    · intro hpos
      rw [hmap]
      unfold flatParam
      rw [if_pos hlt, if_neg (not_lt.mpr hpos)]

theorem flat_find_intersections_spec_witness :
    (FlatGeometryManager.find_intersections ⟨⟨1, 0, 0⟩, ⟨0, 1, 0⟩, ⟨0, 0, 1⟩, ⟨0, 0, 0⟩⟩
        [⟨⟨0, 0, 1⟩, ⟨0, 0, -1⟩⟩]).params.length = 1 ∧
    (FlatGeometryManager.find_intersections ⟨⟨1, 0, 0⟩, ⟨0, 1, 0⟩, ⟨0, 0, 1⟩, ⟨0, 0, 0⟩⟩
        [⟨⟨0, 0, 1⟩, ⟨0, 0, -1⟩⟩]).params.getD 0 PDist.inf = PDist.fin 1 := by
  have h := flat_find_intersections_spec ⟨⟨1, 0, 0⟩, ⟨0, 1, 0⟩, ⟨0, 0, 1⟩, ⟨0, 0, 0⟩⟩
    [⟨⟨0, 0, 1⟩, ⟨0, 0, -1⟩⟩] 0 (by decide)
  refine ⟨h.1, ((h.2.2 ?_).2 ?_).trans ?_⟩
  · norm_num [rayDt, dot, EPS, List.getD]
  · norm_num [rayDt, rayVt, dot, vsub, List.getD]
  · norm_num [rayDt, rayVt, dot, vsub, List.getD]

/-- Claim C2: after the finite-flat computation, RectPlateGM forces to +inf
the distance of every ray whose local-frame X or Y coordinate strictly
exceeds the corresponding half extent in absolute value, and RoundPlateGM
forces to +inf every ray whose local x^2 + y^2 strictly exceeds R^2; rays
exactly on the boundary (equality) are kept, and every non-forced entry
equals the finite-flat value (including entries of already-missed rays). -/
theorem plate_find_intersections_trim (rp : RectPlateGM) (cp : RoundPlateGM) (frame : Frame)
    (rays : List Ray) (i : ℕ) (hi : i < rays.length) :
    (RectPlateGM.find_intersections rp frame rays).length = rays.length ∧
    (RoundPlateGM.find_intersections cp frame rays).length = rays.length ∧
    (∀ l, (FiniteFlatGM.find_intersections frame rays).loc.getD i none = some l →
      (rp.half_w < |l.x| ∨ rp.half_h < |l.y| →
        (RectPlateGM.find_intersections rp frame rays).getD i PDist.inf = PDist.inf) ∧
      (|l.x| ≤ rp.half_w ∧ |l.y| ≤ rp.half_h →
        (RectPlateGM.find_intersections rp frame rays).getD i PDist.inf
          = (FiniteFlatGM.find_intersections frame rays).params.getD i PDist.inf) ∧
      (cp.R ^ 2 < l.x ^ 2 + l.y ^ 2 →
        (RoundPlateGM.find_intersections cp frame rays).getD i PDist.inf = PDist.inf) ∧
      (l.x ^ 2 + l.y ^ 2 ≤ cp.R ^ 2 →
        (RoundPlateGM.find_intersections cp frame rays).getD i PDist.inf
          = (FiniteFlatGM.find_intersections frame rays).params.getD i PDist.inf)) ∧
    ((FiniteFlatGM.find_intersections frame rays).loc.getD i none = none →
      (RectPlateGM.find_intersections rp frame rays).getD i PDist.inf
        = (FiniteFlatGM.find_intersections frame rays).params.getD i PDist.inf ∧
      (RoundPlateGM.find_intersections cp frame rays).getD i PDist.inf
        = (FiniteFlatGM.find_intersections frame rays).params.getD i PDist.inf) := by
  have hlp : (FiniteFlatGM.find_intersections frame rays).params.length = rays.length := by
    simp [FiniteFlatGM.find_intersections, FlatGeometryManager.find_intersections]
  have hll : (FiniteFlatGM.find_intersections frame rays).loc.length = rays.length := by
    simp [FiniteFlatGM.find_intersections, FlatGeometryManager.find_intersections]
  have hr : (RectPlateGM.find_intersections rp frame rays).getD i PDist.inf
      = rectTrim rp ((FiniteFlatGM.find_intersections frame rays).params.getD i PDist.inf)
          ((FiniteFlatGM.find_intersections frame rays).loc.getD i none) :=
    getD_zipWith_of_lt (rectTrim rp) (FiniteFlatGM.find_intersections frame rays).params
      (FiniteFlatGM.find_intersections frame rays).loc PDist.inf none PDist.inf i
      (by rw [hlp]; exact hi) (by rw [hll]; exact hi)
  have hc : (RoundPlateGM.find_intersections cp frame rays).getD i PDist.inf
      = roundTrim cp ((FiniteFlatGM.find_intersections frame rays).params.getD i PDist.inf)
          ((FiniteFlatGM.find_intersections frame rays).loc.getD i none) :=
    getD_zipWith_of_lt (roundTrim cp) (FiniteFlatGM.find_intersections frame rays).params
      (FiniteFlatGM.find_intersections frame rays).loc PDist.inf none PDist.inf i
      (by rw [hlp]; exact hi) (by rw [hll]; exact hi)
  refine ⟨?_, ?_, ?_, ?_⟩
  · simp [RectPlateGM.find_intersections, List.length_zipWith, hlp, hll]
  · simp [RoundPlateGM.find_intersections, List.length_zipWith, hlp, hll]
  · intro l hl
    rw [hl] at hr hc
    refine ⟨?_, ?_, ?_, ?_⟩
    · intro h
      rw [hr, rectTrim, if_pos h]
    · intro h
      rw [hr, rectTrim, if_neg (by push_neg; exact h)]
    · intro h
      rw [hc, roundTrim, if_pos h]
    · intro h
      rw [hc, roundTrim, if_neg (not_lt.mpr h)]
  · intro hl
    rw [hl] at hr hc
    exact ⟨hr, hc⟩

theorem plate_find_intersections_trim_witness :
    (RectPlateGM.find_intersections ⟨1, 2⟩ ⟨⟨1, 0, 0⟩, ⟨0, 1, 0⟩, ⟨0, 0, 1⟩, ⟨0, 0, 0⟩⟩
        [⟨⟨1/2, 0, 1⟩, ⟨0, 0, -1⟩⟩]).length = 1 ∧
    (RectPlateGM.find_intersections ⟨1, 2⟩ ⟨⟨1, 0, 0⟩, ⟨0, 1, 0⟩, ⟨0, 0, 1⟩, ⟨0, 0, 0⟩⟩
        [⟨⟨1/2, 0, 1⟩, ⟨0, 0, -1⟩⟩]).getD 0 PDist.inf = PDist.fin 1 ∧
    (RoundPlateGM.find_intersections ⟨1⟩ ⟨⟨1, 0, 0⟩, ⟨0, 1, 0⟩, ⟨0, 0, 1⟩, ⟨0, 0, 0⟩⟩
        [⟨⟨1/2, 0, 1⟩, ⟨0, 0, -1⟩⟩]).getD 0 PDist.inf = PDist.fin 1 := by
  have hl : (FiniteFlatGM.find_intersections ⟨⟨1, 0, 0⟩, ⟨0, 1, 0⟩, ⟨0, 0, 1⟩, ⟨0, 0, 0⟩⟩
      [⟨⟨1/2, 0, 1⟩, ⟨0, 0, -1⟩⟩]).loc.getD 0 none = some ⟨1/2, 0, 0⟩ := by
    norm_num [FiniteFlatGM.find_intersections, FlatGeometryManager.find_intersections,
      flatParam, rayDt, rayVt, dot, vsub, vadd, smul, globalPoint, frameLocal, cross,
      frameDet, EPS, List.getD]
  have hp : (FiniteFlatGM.find_intersections ⟨⟨1, 0, 0⟩, ⟨0, 1, 0⟩, ⟨0, 0, 1⟩, ⟨0, 0, 0⟩⟩
      [⟨⟨1/2, 0, 1⟩, ⟨0, 0, -1⟩⟩]).params.getD 0 PDist.inf = PDist.fin 1 := by
    norm_num [FiniteFlatGM.find_intersections, FlatGeometryManager.find_intersections,
      flatParam, rayDt, rayVt, dot, vsub, EPS, List.getD]
  have h := plate_find_intersections_trim ⟨1, 2⟩ ⟨1⟩
    ⟨⟨1, 0, 0⟩, ⟨0, 1, 0⟩, ⟨0, 0, 1⟩, ⟨0, 0, 0⟩⟩ [⟨⟨1/2, 0, 1⟩, ⟨0, 0, -1⟩⟩] 0 (by decide)
  have h3 := h.2.2.1 ⟨1/2, 0, 0⟩ hl
  refine ⟨h.1, ?_, ?_⟩
  · exact (h3.2.1 (by norm_num [abs_le])).trans hp
  · exact (h3.2.2.2 (by norm_num)).trans hp

/-- Claim C3: after find_intersections and select_rays(idxs) on
FlatGeometryManager, get_normals returns one column per selected ray;
column j is the frame's local Z axis (column 2 of the rotation block, in
world coordinates) when the selected ray's dt is at most 0, and the negated
Z axis when its dt is positive (backside hit). -/
theorem get_normals_spec (frame : Frame) (rays : List Ray) (idxs : List ℕ) (j : ℕ)
    (hval : ∀ i ∈ idxs, i < rays.length) (hj : j < idxs.length) :
    (FlatGeometryManager.get_normals
        (FlatGeometryManager.select_rays
          (FlatGeometryManager.find_intersections frame rays) idxs)).length = idxs.length ∧
    (rayDt frame (rays.getD (idxs.getD j 0) default) ≤ 0 →
      (FlatGeometryManager.get_normals
        (FlatGeometryManager.select_rays
          (FlatGeometryManager.find_intersections frame rays) idxs)).getD j default
        = frame.az) ∧
    (0 < rayDt frame (rays.getD (idxs.getD j 0) default) →
      (FlatGeometryManager.get_normals
        (FlatGeometryManager.select_rays
          (FlatGeometryManager.find_intersections frame rays) idxs)).getD j default
        = vneg frame.az) := by
  have hidxmem : idxs.getD j 0 ∈ idxs := by
    rw [List.getD_eq_getElem idxs 0 hj]
    exact List.getElem_mem hj
  have hidx : idxs.getD j 0 < rays.length := hval _ hidxmem
  have hback : (FlatGeometryManager.find_intersections frame rays).backside.getD
      (idxs.getD j 0) false
      = decide (0 < rayDt frame (rays.getD (idxs.getD j 0) default)) :=
    getD_map_of_lt (fun r => decide (0 < rayDt frame r)) rays false (idxs.getD j 0) hidx
  have hmem : j ∈ selectBackside
      (FlatGeometryManager.find_intersections frame rays).backside idxs
      ↔ 0 < rayDt frame (rays.getD (idxs.getD j 0) default) := by
    unfold selectBackside
    rw [List.mem_filter]
    constructor
    · rintro ⟨-, hp⟩
      rw [hback] at hp
      exact of_decide_eq_true hp
    · intro hp
      exact ⟨List.mem_range.mpr hj, by rw [hback]; exact decide_eq_true hp⟩
  have hnorm : (FlatGeometryManager.get_normals
      (FlatGeometryManager.select_rays
        (FlatGeometryManager.find_intersections frame rays) idxs)).getD j default
      = if j ∈ selectBackside
            (FlatGeometryManager.find_intersections frame rays).backside idxs
        then vneg frame.az else frame.az := by
    have h1 := getD_map_of_lt
      (fun k => if k ∈ selectBackside
          (FlatGeometryManager.find_intersections frame rays).backside idxs
        then vneg frame.az else frame.az)
      (List.range idxs.length) default j (by simpa using hj)
    rw [getD_range_of_lt idxs.length j default hj] at h1
    exact h1
  refine ⟨?_, ?_, ?_⟩
  · simp [FlatGeometryManager.get_normals, FlatGeometryManager.select_rays]
  · intro hle
    rw [hnorm, if_neg (fun hin => absurd (hmem.mp hin) (not_lt.mpr hle))]
  · intro hlt
    rw [hnorm, if_pos (hmem.mpr hlt)]

theorem get_normals_spec_witness :
    (FlatGeometryManager.get_normals
        (FlatGeometryManager.select_rays
          (FlatGeometryManager.find_intersections
            ⟨⟨1, 0, 0⟩, ⟨0, 1, 0⟩, ⟨0, 0, 1⟩, ⟨0, 0, 0⟩⟩
            [⟨⟨0, 0, 1⟩, ⟨0, 0, -1⟩⟩]) [0])).length = 1 ∧
    (FlatGeometryManager.get_normals
        (FlatGeometryManager.select_rays
          (FlatGeometryManager.find_intersections
            ⟨⟨1, 0, 0⟩, ⟨0, 1, 0⟩, ⟨0, 0, 1⟩, ⟨0, 0, 0⟩⟩
            [⟨⟨0, 0, 1⟩, ⟨0, 0, -1⟩⟩]) [0])).getD 0 default = ⟨0, 0, 1⟩ := by
  have h := get_normals_spec ⟨⟨1, 0, 0⟩, ⟨0, 1, 0⟩, ⟨0, 0, 1⟩, ⟨0, 0, 0⟩⟩
    [⟨⟨0, 0, 1⟩, ⟨0, 0, -1⟩⟩] [0] 0 (by decide) (by decide)
  exact ⟨h.1, h.2.1 (by norm_num [rayDt, dot, List.getD])⟩

/-- Claim C4: FiniteFlatGM.find_intersections returns exactly the distances
of the base FlatGeometryManager, and after select_rays(idxs) the global
intersection points reported for every selected ray with a finite distance t
coincide with what the base select_rays computes, namely
vertex + t * direction at the selected index. -/
theorem finite_flat_refines_flat (frame : Frame) (rays : List Ray) (idxs : List ℕ) (j : ℕ)
    (hj : j < idxs.length) (hval : idxs.getD j 0 < rays.length) (t : ℚ)
    (hfin : (FlatGeometryManager.find_intersections frame rays).params.getD (idxs.getD j 0)
        PDist.inf = PDist.fin t) :
    (FiniteFlatGM.find_intersections frame rays).params
      = (FlatGeometryManager.find_intersections frame rays).params ∧
    (get_intersection_points_global
        (FiniteFlatGM.select_rays (FiniteFlatGM.find_intersections frame rays) idxs)).getD
        j none
      = (get_intersection_points_global
        (FlatGeometryManager.select_rays
          (FlatGeometryManager.find_intersections frame rays) idxs)).getD j none ∧
    (get_intersection_points_global
        (FiniteFlatGM.select_rays (FiniteFlatGM.find_intersections frame rays) idxs)).getD
        j none
      = some (vadd (rays.getD (idxs.getD j 0) default).vertex
          (smul t (rays.getD (idxs.getD j 0) default).direction)) := by
  have hparamslen : (FlatGeometryManager.find_intersections frame rays).params.length
      = rays.length := by
    simp [FlatGeometryManager.find_intersections]
  have hA : (get_intersection_points_global
      (FiniteFlatGM.select_rays (FiniteFlatGM.find_intersections frame rays) idxs)).getD
      j none
      = (FiniteFlatGM.find_intersections frame rays).glob.getD (idxs.getD j 0) none :=
    getD_map_of_lt
      (fun i => (FiniteFlatGM.find_intersections frame rays).glob.getD i none) idxs none j hj
  have hglob : (FiniteFlatGM.find_intersections frame rays).glob.getD (idxs.getD j 0) none
      = globalPoint (rays.getD (idxs.getD j 0) default)
          ((FlatGeometryManager.find_intersections frame rays).params.getD (idxs.getD j 0)
            PDist.inf) :=
    getD_zipWith_of_lt globalPoint rays
      (FlatGeometryManager.find_intersections frame rays).params default PDist.inf none
      (idxs.getD j 0) hval (by rw [hparamslen]; exact hval)
  have hB : (get_intersection_points_global
      (FlatGeometryManager.select_rays
        (FlatGeometryManager.find_intersections frame rays) idxs)).getD j none
      = globalPoint (rays.getD (idxs.getD j 0) default)
          ((FlatGeometryManager.find_intersections frame rays).params.getD (idxs.getD j 0)
            PDist.inf) :=
    getD_map_of_lt
      (fun i => globalPoint (rays.getD i default)
        ((FlatGeometryManager.find_intersections frame rays).params.getD i PDist.inf))
      idxs none j hj
  refine ⟨rfl, ?_, ?_⟩
  · rw [hA, hglob, hB]
  · rw [hA, hglob, hfin]
    rfl

theorem finite_flat_refines_flat_witness :
    (FiniteFlatGM.find_intersections ⟨⟨1, 0, 0⟩, ⟨0, 1, 0⟩, ⟨0, 0, 1⟩, ⟨0, 0, 0⟩⟩
        [⟨⟨0, 0, 1⟩, ⟨0, 0, -1⟩⟩]).params
      = (FlatGeometryManager.find_intersections ⟨⟨1, 0, 0⟩, ⟨0, 1, 0⟩, ⟨0, 0, 1⟩, ⟨0, 0, 0⟩⟩
        [⟨⟨0, 0, 1⟩, ⟨0, 0, -1⟩⟩]).params ∧
    (get_intersection_points_global
        (FiniteFlatGM.select_rays
          (FiniteFlatGM.find_intersections ⟨⟨1, 0, 0⟩, ⟨0, 1, 0⟩, ⟨0, 0, 1⟩, ⟨0, 0, 0⟩⟩
            [⟨⟨0, 0, 1⟩, ⟨0, 0, -1⟩⟩]) [0])).getD 0 none
      = (get_intersection_points_global
        (FlatGeometryManager.select_rays
          (FlatGeometryManager.find_intersections ⟨⟨1, 0, 0⟩, ⟨0, 1, 0⟩, ⟨0, 0, 1⟩, ⟨0, 0, 0⟩⟩
            [⟨⟨0, 0, 1⟩, ⟨0, 0, -1⟩⟩]) [0])).getD 0 none ∧
    (get_intersection_points_global
        (FiniteFlatGM.select_rays
          (FiniteFlatGM.find_intersections ⟨⟨1, 0, 0⟩, ⟨0, 1, 0⟩, ⟨0, 0, 1⟩, ⟨0, 0, 0⟩⟩
            [⟨⟨0, 0, 1⟩, ⟨0, 0, -1⟩⟩]) [0])).getD 0 none = some ⟨0, 0, 0⟩ := by
  have hfin : (FlatGeometryManager.find_intersections
      ⟨⟨1, 0, 0⟩, ⟨0, 1, 0⟩, ⟨0, 0, 1⟩, ⟨0, 0, 0⟩⟩
      [⟨⟨0, 0, 1⟩, ⟨0, 0, -1⟩⟩]).params.getD (([0] : List ℕ).getD 0 0) PDist.inf
      = PDist.fin 1 := by
    norm_num [FlatGeometryManager.find_intersections, flatParam, rayDt, rayVt, dot, vsub,
      EPS, List.getD]
  have h := finite_flat_refines_flat ⟨⟨1, 0, 0⟩, ⟨0, 1, 0⟩, ⟨0, 0, 1⟩, ⟨0, 0, 0⟩⟩
    [⟨⟨0, 0, 1⟩, ⟨0, 0, -1⟩⟩] [0] 0 (by decide) (by decide) 1 hfin
  exact ⟨h.1, h.2.1, h.2.2.trans (by norm_num [vadd, smul, List.getD])⟩

/-- Claim C5: the binary merge concatenates, attribute by attribute, the
columns of attributes present on both operands (left then right), and drops
any attribute present on only one operand. -/
theorem add_spec (a b : RayBundle) :
    (∀ xs ys, a.vertices = some xs → b.vertices = some ys →
      (RayBundle.add a b).vertices = some (xs ++ ys)) ∧
    (a.vertices = none ∨ b.vertices = none → (RayBundle.add a b).vertices = none) ∧
    (∀ xs ys, a.directions = some xs → b.directions = some ys →
      (RayBundle.add a b).directions = some (xs ++ ys)) ∧
    (a.directions = none ∨ b.directions = none → (RayBundle.add a b).directions = none) ∧
    (∀ xs ys, a.energy = some xs → b.energy = some ys →
      (RayBundle.add a b).energy = some (xs ++ ys)) ∧
    (a.energy = none ∨ b.energy = none → (RayBundle.add a b).energy = none) ∧
    (∀ xs ys, a.parents = some xs → b.parents = some ys →
      (RayBundle.add a b).parents = some (xs ++ ys)) ∧
    (a.parents = none ∨ b.parents = none → (RayBundle.add a b).parents = none) ∧
    (∀ xs ys, a.ref_index = some xs → b.ref_index = some ys →
      (RayBundle.add a b).ref_index = some (xs ++ ys)) ∧
    (a.ref_index = none ∨ b.ref_index = none → (RayBundle.add a b).ref_index = none) := by
  refine ⟨?_, ?_, ?_, ?_, ?_, ?_, ?_, ?_, ?_, ?_⟩
  · intro xs ys hx hy; simp [RayBundle.add, mergeAttr, hx, hy]
  · rintro (h | h)
    · cases hb : b.vertices <;> simp [RayBundle.add, mergeAttr, h, hb]
    · cases ha : a.vertices <;> simp [RayBundle.add, mergeAttr, h, ha]
  · intro xs ys hx hy; simp [RayBundle.add, mergeAttr, hx, hy]
  · rintro (h | h)
    · cases hb : b.directions <;> simp [RayBundle.add, mergeAttr, h, hb]
    · cases ha : a.directions <;> simp [RayBundle.add, mergeAttr, h, ha]
  · intro xs ys hx hy; simp [RayBundle.add, mergeAttr, hx, hy]
  · rintro (h | h)
    · cases hb : b.energy <;> simp [RayBundle.add, mergeAttr, h, hb]
    · cases ha : a.energy <;> simp [RayBundle.add, mergeAttr, h, ha]
  · intro xs ys hx hy; simp [RayBundle.add, mergeAttr, hx, hy]
  · rintro (h | h)
    · cases hb : b.parents <;> simp [RayBundle.add, mergeAttr, h, hb]
    · cases ha : a.parents <;> simp [RayBundle.add, mergeAttr, h, ha]
  · intro xs ys hx hy; simp [RayBundle.add, mergeAttr, hx, hy]
  · rintro (h | h)
    · cases hb : b.ref_index <;> simp [RayBundle.add, mergeAttr, h, hb]
    · cases ha : a.ref_index <;> simp [RayBundle.add, mergeAttr, h, ha]

theorem add_spec_witness :
    (RayBundle.add
        ⟨some [⟨0, 0, 0⟩], some [⟨0, 0, 1⟩], some [1], some [0], some [1]⟩
        ⟨some [⟨5, 0, 0⟩], some [⟨0, 1, 0⟩], some [2], some [3], some [1]⟩).vertices
      = some [⟨0, 0, 0⟩, ⟨5, 0, 0⟩] ∧
    (RayBundle.add
        ⟨some [⟨0, 0, 0⟩], some [⟨0, 0, 1⟩], some [1], some [0], some [1]⟩
        ⟨none, some [⟨0, 1, 0⟩], some [2], some [3], some [1]⟩).vertices = none := by
  constructor
  · exact ((add_spec
      ⟨some [⟨0, 0, 0⟩], some [⟨0, 0, 1⟩], some [1], some [0], some [1]⟩
      ⟨some [⟨5, 0, 0⟩], some [⟨0, 1, 0⟩], some [2], some [3], some [1]⟩).1
      [⟨0, 0, 0⟩] [⟨5, 0, 0⟩] rfl rfl).trans rfl
  · exact (add_spec
      ⟨some [⟨0, 0, 0⟩], some [⟨0, 0, 1⟩], some [1], some [0], some [1]⟩
      ⟨none, some [⟨0, 1, 0⟩], some [2], some [3], some [1]⟩).2.1 (Or.inr rfl)

/-- Claim C6 counterexample: inherit called with a selector of length 1 and a
vertices override of length 2 does not fail: it returns a bundle whose
vertices attribute has 2 columns while its energy attribute has 1, i.e. it
silently produces a wrong-length result. -/
theorem inherit_mismatch_cex :
    ((RayBundle.mk (some [⟨0, 0, 0⟩]) none (some [1]) none none).inherit [0]
        (some [⟨1, 0, 0⟩, ⟨2, 0, 0⟩]) none none none none).vertices
      = some [⟨1, 0, 0⟩, ⟨2, 0, 0⟩] ∧
    ((RayBundle.mk (some [⟨0, 0, 0⟩]) none (some [1]) none none).inherit [0]
        (some [⟨1, 0, 0⟩, ⟨2, 0, 0⟩]) none none none none).energy = some [1] :=
  ⟨rfl, rfl⟩

/-- Claim C6 (amended): inherit performs no length validation at all; every
supplied override array is used verbatim whatever its length, so a call with
an override whose length differs from the selector's returns normally and the
resulting bundle has attributes of mismatched lengths; length agreement is
the caller's responsibility. -/
theorem inherit_overrides_verbatim (b : RayBundle) (sel : List ℕ) (vo dro : List Vec3)
    (eo : List ℚ) (po : List ℕ) (ro : List ℚ) :
    b.inherit sel (some vo) (some dro) (some eo) (some po) (some ro)
      = RayBundle.mk (some vo) (some dro) (some eo) (some po) (some ro) := by
  simp [RayBundle.inherit, inheritAttr]

/-- Claim C7: delete_rays(selector) is inherit with no overrides at the
ascending index-complement of the selector over range(num_rays); in
particular each present attribute of the result holds exactly the columns at
the complement indices. -/
theorem delete_rays_spec (b : RayBundle) (selector : List ℕ) :
    b.delete_rays selector
      = b.inherit ((List.range b.get_num_rays).filter (fun i => ¬ i ∈ selector))
          none none none none none ∧
    (∀ vs, b.vertices = some vs →
      (b.delete_rays selector).vertices
        = some (colsAt vs
            ((List.range b.get_num_rays).filter (fun i => ¬ i ∈ selector)))) := by
  refine ⟨rfl, ?_⟩
  intro vs hvs
  simp [RayBundle.delete_rays, RayBundle.inherit, inheritAttr, hvs]

theorem delete_rays_spec_witness :
    (RayBundle.mk (some [⟨0, 0, 0⟩, ⟨1, 0, 0⟩, ⟨2, 0, 0⟩]) none none none none).delete_rays [1]
      = (RayBundle.mk (some [⟨0, 0, 0⟩, ⟨1, 0, 0⟩, ⟨2, 0, 0⟩]) none none none none).inherit
          ((List.range (RayBundle.mk (some [⟨0, 0, 0⟩, ⟨1, 0, 0⟩, ⟨2, 0, 0⟩])
              none none none none).get_num_rays).filter (fun i => ¬ i ∈ [1]))
          none none none none none ∧
    ((RayBundle.mk (some [⟨0, 0, 0⟩, ⟨1, 0, 0⟩, ⟨2, 0, 0⟩]) none none none none).delete_rays
        [1]).vertices = some [⟨0, 0, 0⟩, ⟨2, 0, 0⟩] := by
  have h := delete_rays_spec
    (RayBundle.mk (some [⟨0, 0, 0⟩, ⟨1, 0, 0⟩, ⟨2, 0, 0⟩]) none none none none) [1]
  exact ⟨h.1, (h.2 [⟨0, 0, 0⟩, ⟨1, 0, 0⟩, ⟨2, 0, 0⟩] rfl).trans rfl⟩

/-- Claim C8: constructing RectPlateGM with non-positive width or height, or
RoundPlateGM with non-positive R, fails at construction (no instance is
produced, so no ray can ever be processed by it); strictly positive
parameters succeed, storing the half extents (rectangle) or the radius
(disk). -/
theorem plate_init_spec (width height R : ℚ) :
    (width ≤ 0 ∨ height ≤ 0 →
      ∃ msg, RectPlateGM.init width height = Except.error msg) ∧
    (0 < width → 0 < height →
      RectPlateGM.init width height = Except.ok ⟨width / 2, height / 2⟩) ∧
    (R ≤ 0 → ∃ msg, RoundPlateGM.init R = Except.error msg) ∧
    (0 < R → RoundPlateGM.init R = Except.ok ⟨R⟩) := by
  refine ⟨?_, ?_, ?_, ?_⟩
  · rintro (h | h)
    · exact ⟨"Width must be positive", by simp [RectPlateGM.init, h]⟩
    · by_cases hw : width ≤ 0
      · exact ⟨"Width must be positive", by simp [RectPlateGM.init, hw]⟩
      · exact ⟨"Height must be positive", by simp [RectPlateGM.init, hw, h]⟩
  · intro hw hh
    simp [RectPlateGM.init, not_le.mpr hw, not_le.mpr hh]
  · intro h
    exact ⟨"Radius must be positive", by simp [RoundPlateGM.init, h]⟩
  · intro h
    simp [RoundPlateGM.init, not_le.mpr h]

theorem plate_init_spec_witness :
    (∃ msg, RectPlateGM.init 0 4 = Except.error msg) ∧
    RectPlateGM.init 2 4 = Except.ok ⟨1, 2⟩ ∧
    (∃ msg, RoundPlateGM.init (-1) = Except.error msg) ∧
    RoundPlateGM.init 1 = Except.ok ⟨1⟩ := by
  refine ⟨(plate_init_spec 0 4 (-1)).1 (Or.inl (by norm_num)), ?_, ?_, ?_⟩
  · exact ((plate_init_spec 2 4 (-1)).2.1 (by norm_num) (by norm_num)).trans (by norm_num)
  · exact (plate_init_spec 0 4 (-1)).2.2.1 (by norm_num)
  · exact ((plate_init_spec 0 4 1).2.2.2 (by norm_num)).trans rfl

/-- Claim C9: for every unit-length axis (x, y, z) and every angle — an
angle being represented exactly by its sine s and cosine c, which satisfy
s^2 + c^2 = 1 — the rotation matrix R of general_axis_rotation satisfies
R * R^T = I and preserves the squared Euclidean norm of every vector, and
generate_transform returns the homogeneous 4x4 matrix whose top-left 3x3
block is R, whose top-right column is the translation, and whose bottom row
is (0, 0, 0, 1). -/
theorem general_axis_rotation_spec (x y z s c : ℚ) (hax : x ^ 2 + y ^ 2 + z ^ 2 = 1)
    (hsc : s ^ 2 + c ^ 2 = 1) (translation w : Vec3) :
    mat3_mul (general_axis_rotation ⟨x, y, z⟩ s c)
        (mat3_transpose (general_axis_rotation ⟨x, y, z⟩ s c)) = mat3_id ∧
    normSq (mat3_mulVec (general_axis_rotation ⟨x, y, z⟩ s c) w) = normSq w ∧
    mat4_rot (generate_transform ⟨x, y, z⟩ s c translation)
      = general_axis_rotation ⟨x, y, z⟩ s c ∧
    mat4_translation (generate_transform ⟨x, y, z⟩ s c translation) = translation ∧
    mat4_bottom (generate_transform ⟨x, y, z⟩ s c translation) = (0, 0, 0, 1) := by
  refine ⟨?_, ?_, rfl, rfl, rfl⟩
  · simp only [general_axis_rotation, mat3_mul, mat3_transpose, mat3_id, Mat3.mk.injEq]
    refine ⟨?_, ?_, ?_, ?_, ?_, ?_, ?_, ?_, ?_⟩
    · linear_combination (x ^ 2 * (1 - c) ^ 2 + s ^ 2) * hax + (1 - x ^ 2) * hsc
    · linear_combination (x * y * (1 - c) ^ 2) * hax + (-(x * y)) * hsc
    · linear_combination (x * z * (1 - c) ^ 2) * hax + (-(x * z)) * hsc
    · linear_combination (x * y * (1 - c) ^ 2) * hax + (-(x * y)) * hsc
    · linear_combination (y ^ 2 * (1 - c) ^ 2 + s ^ 2) * hax + (1 - y ^ 2) * hsc
    · linear_combination (y * z * (1 - c) ^ 2) * hax + (-(y * z)) * hsc
    · linear_combination (x * z * (1 - c) ^ 2) * hax + (-(x * z)) * hsc
    · linear_combination (y * z * (1 - c) ^ 2) * hax + (-(y * z)) * hsc
    · linear_combination (z ^ 2 * (1 - c) ^ 2 + s ^ 2) * hax + (1 - z ^ 2) * hsc
  · simp only [general_axis_rotation, mat3_mulVec, normSq, dot]
    linear_combination
      (w.x ^ 2 * (x ^ 2 * (1 - c) ^ 2 + s ^ 2) + w.y ^ 2 * (y ^ 2 * (1 - c) ^ 2 + s ^ 2)
        + w.z ^ 2 * (z ^ 2 * (1 - c) ^ 2 + s ^ 2) + 2 * w.x * w.y * x * y * (1 - c) ^ 2
        + 2 * w.x * w.z * x * z * (1 - c) ^ 2 + 2 * w.y * w.z * y * z * (1 - c) ^ 2) * hax
      + (w.x ^ 2 * (1 - x ^ 2) + w.y ^ 2 * (1 - y ^ 2) + w.z ^ 2 * (1 - z ^ 2)
        - 2 * w.x * w.y * x * y - 2 * w.x * w.z * x * z - 2 * w.y * w.z * y * z) * hsc

theorem general_axis_rotation_spec_witness :
    ((0 : ℚ) ^ 2 + 0 ^ 2 + 1 ^ 2 = 1) ∧ ((3 / 5 : ℚ) ^ 2 + (4 / 5) ^ 2 = 1) ∧
    (mat3_mul (general_axis_rotation ⟨0, 0, 1⟩ (3 / 5) (4 / 5))
        (mat3_transpose (general_axis_rotation ⟨0, 0, 1⟩ (3 / 5) (4 / 5))) = mat3_id ∧
     normSq (mat3_mulVec (general_axis_rotation ⟨0, 0, 1⟩ (3 / 5) (4 / 5)) ⟨1, 2, 3⟩)
       = normSq ⟨1, 2, 3⟩ ∧
     mat4_rot (generate_transform ⟨0, 0, 1⟩ (3 / 5) (4 / 5) ⟨7, 8, 9⟩)
       = general_axis_rotation ⟨0, 0, 1⟩ (3 / 5) (4 / 5) ∧
     mat4_translation (generate_transform ⟨0, 0, 1⟩ (3 / 5) (4 / 5) ⟨7, 8, 9⟩) = ⟨7, 8, 9⟩ ∧
     mat4_bottom (generate_transform ⟨0, 0, 1⟩ (3 / 5) (4 / 5) ⟨7, 8, 9⟩) = (0, 0, 0, 1)) :=
  ⟨by norm_num, by norm_num,
    general_axis_rotation_spec 0 0 1 (3 / 5) (4 / 5) (by norm_num) (by norm_num)
      ⟨7, 8, 9⟩ ⟨1, 2, 3⟩⟩

/-- Claim C10: empty_bund has all five canonical attributes present with
zero rays, and is a two-sided identity for the binary merge on every bundle
that has all five canonical attributes present. -/
theorem empty_bund_identity (b : RayBundle) (h1 : b.vertices.isSome = true)
    (h2 : b.directions.isSome = true) (h3 : b.energy.isSome = true)
    (h4 : b.parents.isSome = true) (h5 : b.ref_index.isSome = true) :
    RayBundle.empty_bund.vertices = some [] ∧
    RayBundle.empty_bund.directions = some [] ∧
    RayBundle.empty_bund.energy = some [] ∧
    RayBundle.empty_bund.parents = some [] ∧
    RayBundle.empty_bund.ref_index = some [] ∧
    RayBundle.empty_bund.get_num_rays = 0 ∧
    RayBundle.add RayBundle.empty_bund b = b ∧
    RayBundle.add b RayBundle.empty_bund = b := by
  obtain ⟨bv, bd, be, bp, br⟩ := b
  obtain ⟨vs, rfl⟩ := Option.isSome_iff_exists.mp h1
  obtain ⟨ds, rfl⟩ := Option.isSome_iff_exists.mp h2
  obtain ⟨es, rfl⟩ := Option.isSome_iff_exists.mp h3
  obtain ⟨ps, rfl⟩ := Option.isSome_iff_exists.mp h4
  obtain ⟨rs, rfl⟩ := Option.isSome_iff_exists.mp h5
  refine ⟨rfl, rfl, rfl, rfl, rfl, rfl, ?_, ?_⟩ <;>
    simp [RayBundle.add, RayBundle.empty_bund, mergeAttr]

theorem empty_bund_identity_witness :
    RayBundle.empty_bund.get_num_rays = 0 ∧
    RayBundle.add RayBundle.empty_bund
        ⟨some [⟨1, 2, 3⟩], some [⟨0, 0, 1⟩], some [5], some [0], some [1]⟩
      = ⟨some [⟨1, 2, 3⟩], some [⟨0, 0, 1⟩], some [5], some [0], some [1]⟩ ∧
    RayBundle.add ⟨some [⟨1, 2, 3⟩], some [⟨0, 0, 1⟩], some [5], some [0], some [1]⟩
        RayBundle.empty_bund
      = ⟨some [⟨1, 2, 3⟩], some [⟨0, 0, 1⟩], some [5], some [0], some [1]⟩ := by
  have h := empty_bund_identity
    ⟨some [⟨1, 2, 3⟩], some [⟨0, 0, 1⟩], some [5], some [0], some [1]⟩ rfl rfl rfl rfl rfl
  exact ⟨h.2.2.2.2.2.1, h.2.2.2.2.2.2.1, h.2.2.2.2.2.2.2⟩

end Tracer
